import Mathlib

/-!
A verification development for the `typescript-lsp` bridge: a shallow
embedding in Lean 4 of the request dispatcher (`src/lsp-server.ts`) and the
coordinate/shape translation helpers (`protocol-translation`), together with
theorems settling the specification's claims about them.

Conventions of the embedding:
* TypeScript numbers used as line/column coordinates are modelled as `Int`
  (JS subtraction can go negative); timestamps as `Nat`.
* A JS `Map` is modelled as an association list in insertion order:
  `set` on an existing key updates the value in place, otherwise appends;
  `delete` removes the entry; iteration follows the list order.
* External collaborators (`uriToPath`, `pathToUri` from `vscode-uri`; the
  wall clock `new Date().getTime()`) are passed in as explicit parameters.
* Each dispatcher operation is a pure function from state (plus inputs) to a
  new state and the list of observable messages it emits, in order: tsserver
  notifications and requests, log output, and diagnostic publications.
-/

/-- `tsp.Location`: a one-based line/offset pair of the tsserver protocol. -/
structure TsLocation where
  line : Int
  offset : Int
deriving DecidableEq, Repr

/-- `lsp.Position`: a zero-based line/character pair of the editor protocol. -/
structure LspPosition where
  line : Int
  character : Int
deriving DecidableEq, Repr

/-- `lsp.Range`; the source field `end` must be renamed (`end` is a Lean keyword). -/
structure LspRange where
  start : LspPosition
  endPos : LspPosition
deriving DecidableEq, Repr

/-- `protocol-translation.toPosition`: converts a one-based tsserver location
to a zero-based editor position by subtracting 1 from line and offset. -/
def toPosition (location : TsLocation) : LspPosition :=
  { line := location.line - 1
    character := location.offset - 1 }

/-- `tsp.Diagnostic` as consumed by `toDiagnostic`. -/
structure TspDiagnostic where
  start : TsLocation
  endPos : TsLocation
  text : String
  category : String
  code : Option Int
deriving DecidableEq, Repr

/-- `protocol-translation.toDiagnosticSeverity`; LSP severity codes:
Error = 1, Warning = 2, Information = 3. -/
def toDiagnosticSeverity (category : String) : Int :=
  match category with
  | "error" => 1
  | "warning" => 2
  | _ => 3

/-- `lsp.Diagnostic` as produced by `toDiagnostic`. -/
structure Diagnostic where
  range : LspRange
  message : String
  severity : Int
  code : Option Int
  source : String
deriving DecidableEq, Repr

/-- `protocol-translation.toDiagnostic`. -/
def toDiagnostic (tspDiag : TspDiagnostic) : Diagnostic :=
  { range := { start := toPosition tspDiag.start, endPos := toPosition tspDiag.endPos }
    message := tspDiag.text
    severity := toDiagnosticSeverity tspDiag.category
    code := tspDiag.code
    source := "typescript" }

/-- `protocol-translation.symbolKindsMapping`, with LSP `SymbolKind` numeric
codes (File = 1, Module = 2, Class = 5, Method = 6, Property = 7, Field = 8,
Constructor = 9, Enum = 10, Interface = 11, Function = 12, Variable = 13,
Constant = 14). -/
def symbolKindsMapping : List (String × Int) :=
  [("enum member", 14), ("JSX attribute", 7), ("local class", 5),
   ("local function", 12), ("local var", 13), ("type parameter", 13),
   ("alias", 13), ("class", 5), ("const", 14), ("constructor", 9),
   ("enum", 10), ("field", 8), ("file", 1), ("function", 12),
   ("getter", 6), ("interface", 11), ("let", 13), ("method", 6),
   ("module", 2), ("parameter", 13), ("property", 7), ("setter", 6),
   ("var", 13)]

/-- `protocol-translation.toSymbolKind`: table lookup with `Variable` (13)
as the default for unknown kinds. -/
def toSymbolKind (tspKind : String) : Int :=
  (symbolKindsMapping.lookup tspKind).getD 13

/-- JS `Map.set` on an insertion-ordered association list: an existing key is
updated in place (keeping its position); a new key is appended at the end. -/
def mapSet {α : Type} (m : List (String × α)) (k : String) (v : α) :
    List (String × α) :=
  if m.any (fun e => e.1 == k) then
    m.map (fun e => if e.1 == k then (k, v) else e)
  else
    m ++ [(k, v)]

/-- JS `Map.delete`: removes the entry for the key, keeping the rest in order. -/
def mapDelete {α : Type} (m : List (String × α)) (k : String) :
    List (String × α) :=
  m.filter (fun e => !(e.1 == k))

/-- The observable output of a dispatcher operation, in emission order:
tsserver notifications and requests, logger output, and diagnostic
publications through the `lspClient.publishDiagnostics` callback. -/
inductive Msg where
  | notifyOpen (file fileContent : String)
  | notifyClose (file : String)
  | notifyChange (file : String) (line offset endLine endOffset : Int)
      (insertString : String)
  | requestGeterr (delay : Nat) (files : List String)
  | logError (message : String)
  | logIgnored (message : String)
  | publishDiagnostics (file : String) (diagnostics : List Diagnostic)
deriving DecidableEq, Repr

/-- Modelled from the spec: `DiagnosticEventQueue` (`diagnostic-queue.ts` is
not under `src/`). Per file it holds the most recent syntactic diagnostic set
and the most recent semantic diagnostic set, each absent until first computed
("DiagnosticBucket ... holds the most recent syntactic diagnostic set and the
most recent semantic diagnostic set (each independently nullable)"). -/
structure DiagnosticEventQueue where
  syntacticDiagnostics : List (String × List Diagnostic)
  semanticDiagnostics : List (String × List Diagnostic)
deriving DecidableEq, Repr

/-- Modelled from the spec: `addSyntacticDiagnostic` — "update the
corresponding slot in the file's bucket (creating it if absent), then
immediately publish the union of both slots for that file". The union is the
concatenation of the two slots ("by diagnostic identity, not deduplicated
across kinds"); incoming tsserver diagnostics are translated with
`toDiagnostic`. -/
def addSyntacticDiagnostic (q : DiagnosticEventQueue) (file : String)
    (diagnostics : List TspDiagnostic) : DiagnosticEventQueue × List Msg :=
  let syn := mapSet q.syntacticDiagnostics file (diagnostics.map toDiagnostic)
  let q' := { q with syntacticDiagnostics := syn }
  (q', [Msg.publishDiagnostics file
    (((q'.syntacticDiagnostics.lookup file).getD []) ++
     ((q'.semanticDiagnostics.lookup file).getD []))])

/-- Modelled from the spec: `addSemanticDiagnostic`, symmetric to
`addSyntacticDiagnostic` on the semantic slot. -/
def addSemanticDiagnostic (q : DiagnosticEventQueue) (file : String)
    (diagnostics : List TspDiagnostic) : DiagnosticEventQueue × List Msg :=
  let sem := mapSet q.semanticDiagnostics file (diagnostics.map toDiagnostic)
  let q' := { q with semanticDiagnostics := sem }
  (q', [Msg.publishDiagnostics file
    (((q'.syntacticDiagnostics.lookup file).getD []) ++
     ((q'.semanticDiagnostics.lookup file).getD []))])

/-- The mutable state of `LspServer`: the opened-document map
(uri ↦ last-touched timestamp, insertion-ordered like a JS `Map`) and the
diagnostic queue. -/
structure LspServerState where
  openedDocumentUris : List (String × Nat)
  diagnosticQueue : DiagnosticEventQueue
deriving DecidableEq, Repr

/-- The initial state: no open documents, empty diagnostic queue. -/
def initialState : LspServerState :=
  { openedDocumentUris := [], diagnosticQueue := ⟨[], []⟩ }

/-- `LspServer.requestDiagnostics`: sorts the opened documents by timestamp
ascending ("sort by least recently usage", comparator `a[1] - b[1]`), converts
each uri to a path, and issues a single `geterr` request with delay 0. -/
def requestDiagnosticsMsg (uriToPath : String → String) (s : LspServerState) :
    Msg :=
  Msg.requestGeterr 0
    ((List.insertionSort (fun a b => a.2 ≤ b.2) s.openedDocumentUris).map
      (fun e => uriToPath e.1))

/-- `LspServer.didOpenTextDocument`: notifies tsserver (`open` with full
text), records the uri with the current time, and requests diagnostics. -/
def didOpenTextDocument (uriToPath : String → String) (s : LspServerState)
    (now : Nat) (uri text : String) : LspServerState × List Msg :=
  let path := uriToPath uri
  let s' := { s with openedDocumentUris := mapSet s.openedDocumentUris uri now }
  (s', [Msg.notifyOpen path text, requestDiagnosticsMsg uriToPath s'])

/-- `LspServer.didCloseTextDocument`: notifies tsserver (`close`) and deletes
the uri from the opened-document map. Note: it does not touch the diagnostic
queue. -/
def didCloseTextDocument (uriToPath : String → String) (s : LspServerState)
    (uri : String) : LspServerState × List Msg :=
  let path := uriToPath uri
  ({ s with openedDocumentUris := mapDelete s.openedDocumentUris uri },
   [Msg.notifyClose path])

/-- `lsp.TextDocumentContentChangeEvent`: an optional range plus new text. -/
structure ContentChange where
  range : Option LspRange
  text : String
deriving DecidableEq, Repr

/-- `LspServer.didChangeTextDocument`: refreshes the uri's timestamp, then for
each content change either logs an error and resends the full text as an
`open` notification (no range) or sends an incremental `change` notification
with one-based coordinates (range present), and finally requests
diagnostics. -/
def didChangeTextDocument (uriToPath : String → String) (s : LspServerState)
    (now : Nat) (uri : String) (contentChanges : List ContentChange) :
    LspServerState × List Msg :=
  let path := uriToPath uri
  let s' := { s with openedDocumentUris := mapSet s.openedDocumentUris uri now }
  (s',
    contentChanges.flatMap (fun change =>
      match change.range with
      | none =>
        [Msg.logError ("Received non-incremental change for " ++ uri),
         Msg.notifyOpen path change.text]
      | some range =>
        [Msg.notifyChange path (range.start.line + 1)
          (range.start.character + 1) (range.endPos.line + 1)
          (range.endPos.character + 1) change.text])
    ++ [requestDiagnosticsMsg uriToPath s'])

/-- The unsolicited tsserver events `LspServer.onTsEvent` distinguishes:
`syntaxDiag`, `semanticDiag`, and everything else. -/
inductive TsEvent where
  | syntaxDiag (file : String) (diagnostics : List TspDiagnostic)
  | semanticDiag (file : String) (diagnostics : List TspDiagnostic)
  | other (tag : String)
deriving DecidableEq, Repr

/-- `LspServer.onTsEvent`: routes semantic and syntactic diagnostic events to
the diagnostic queue and logs any other event as ignored. -/
def onTsEvent (s : LspServerState) (event : TsEvent) :
    LspServerState × List Msg :=
  match event with
  | .semanticDiag file diagnostics =>
    let r := addSemanticDiagnostic s.diagnosticQueue file diagnostics
    ({ s with diagnosticQueue := r.1 }, r.2)
  | .syntaxDiag file diagnostics =>
    let r := addSyntacticDiagnostic s.diagnosticQueue file diagnostics
    ({ s with diagnosticQueue := r.1 }, r.2)
  | .other tag => (s, [Msg.logIgnored ("Ignored event : " ++ tag)])

/-- `mapSet` followed by `lookup` of the same key finds the new value. -/
theorem lookup_mapSet_self {α : Type} (k : String) (v : α) :
    ∀ m : List (String × α), (mapSet m k v).lookup k = some v := by
  intro m
  induction m with
  | nil => simp [mapSet]
  | cons e es ih =>
    rcases e with ⟨ek, ev⟩
    by_cases hek : ek = k
    · subst hek
      simp [mapSet, List.lookup]
    · have h1 : (ek == k) = false := by simp [hek]
      have h2 : (k == ek) = false := by simp [Ne.symm hek]
      by_cases hany : es.any (fun e => e.1 == k)
      · simp only [mapSet, List.any_cons, h1, hany, Bool.false_or, if_true,
          List.map_cons, h1, if_false, List.lookup, h2]
        simpa only [mapSet, hany, if_true] using ih
      · simp only [mapSet, List.any_cons, h1, hany, Bool.false_or, if_false,
          List.cons_append, List.lookup, h2]
        simpa only [mapSet, hany, if_false] using ih

/-- C3: converting a zero-based editor position to one-based tsserver
coordinates (adding 1 to line and character, as every request site in
`lsp-server.ts` does) and converting back with `toPosition` yields the
original position, for all non-negative line/character values. -/
theorem toPosition_roundTrip (line character : Int)
    (hl : 0 ≤ line) (hc : 0 ≤ character) :
    toPosition { line := line + 1, offset := character + 1 } =
      { line := line, character := character } := by
  simp [toPosition]

/-- Witness for C3 at line 3, character 5. -/
theorem toPosition_roundTrip_witness :
    toPosition { line := (3 : Int) + 1, offset := (5 : Int) + 1 } =
      { line := 3, character := 5 } :=
  toPosition_roundTrip 3 5 (by decide) (by decide)

/-- Whether a message is a `geterr` (re-analysis) request. -/
def isGeterr : Msg → Bool
  | .requestGeterr _ _ => true
  | _ => false

/-- No per-change notification of `didChangeTextDocument` is a `geterr`
request, so filtering them for `geterr` yields nothing. -/
theorem filter_isGeterr_flatMap_eq_nil {α : Type} (f : α → List Msg)
    (l : List α) (h : ∀ a, (f a).filter isGeterr = []) :
    (l.flatMap f).filter isGeterr = [] := by
  induction l with
  | nil => simp
  | cons a as ih => simp [List.filter_append, h, ih]

instance : IsTotal (String × Nat) (fun a b => a.2 ≤ b.2) :=
  ⟨fun a b => Nat.le_total a.2 b.2⟩

instance : IsTrans (String × Nat) (fun a b => a.2 ≤ b.2) :=
  ⟨fun _ _ _ h1 h2 => Nat.le_trans h1 h2⟩

/-- C4: after every document-open and every document-change operation,
exactly one re-analysis (`geterr`) request is issued, and its file list is
exactly the current opened-document set (a permutation of the post-operation
map) arranged in ascending last-touched-timestamp order and converted to
paths. -/
theorem open_change_issue_one_sorted_geterr
    (uriToPath : String → String) (s : LspServerState) (now : Nat)
    (uri text : String) (contentChanges : List ContentChange) :
    (∃ ordered : List (String × Nat),
      List.Perm ordered
        (didOpenTextDocument uriToPath s now uri text).1.openedDocumentUris ∧
      ordered.Pairwise (fun a b => a.2 ≤ b.2) ∧
      ((didOpenTextDocument uriToPath s now uri text).2.filter isGeterr) =
        [Msg.requestGeterr 0 (ordered.map (fun e => uriToPath e.1))]) ∧
    (∃ ordered : List (String × Nat),
      List.Perm ordered
        (didChangeTextDocument uriToPath s now uri
          contentChanges).1.openedDocumentUris ∧
      ordered.Pairwise (fun a b => a.2 ≤ b.2) ∧
      ((didChangeTextDocument uriToPath s now uri contentChanges).2.filter
          isGeterr) =
        [Msg.requestGeterr 0 (ordered.map (fun e => uriToPath e.1))]) := by
  constructor
  · refine ⟨List.insertionSort (fun a b => a.2 ≤ b.2)
      (mapSet s.openedDocumentUris uri now), ?_, ?_, ?_⟩
    · simpa [didOpenTextDocument] using
        List.perm_insertionSort (fun (a b : String × Nat) => a.2 ≤ b.2)
          (mapSet s.openedDocumentUris uri now)
    · simpa [List.Sorted] using
        List.sorted_insertionSort (fun (a b : String × Nat) => a.2 ≤ b.2)
          (mapSet s.openedDocumentUris uri now)
    · simp [didOpenTextDocument, requestDiagnosticsMsg, isGeterr]
  · refine ⟨List.insertionSort (fun a b => a.2 ≤ b.2)
      (mapSet s.openedDocumentUris uri now), ?_, ?_, ?_⟩
    · simpa [didChangeTextDocument] using
        List.perm_insertionSort (fun (a b : String × Nat) => a.2 ≤ b.2)
          (mapSet s.openedDocumentUris uri now)
    · simpa [List.Sorted] using
        List.sorted_insertionSort (fun (a b : String × Nat) => a.2 ≤ b.2)
          (mapSet s.openedDocumentUris uri now)
    · rw [didChangeTextDocument]
      simp only [List.filter_append]
      rw [filter_isGeterr_flatMap_eq_nil]
      · simp [requestDiagnosticsMsg, isGeterr]
      · intro c
        cases hc : c.range <;> simp [hc, isGeterr]

/-- C1 (amended): `didCloseTextDocument` removes the opened-document entry
and notifies tsserver, but does not discard the file's diagnostic bucket: a
subsequently delivered diagnostic event for the file still produces exactly
one publish call, carrying the event's diagnostics joined with whatever
semantic slot the queue already held for that file. -/
theorem didClose_then_event_still_publishes
    (uriToPath : String → String) (s : LspServerState) (uri file : String)
    (diagnostics : List TspDiagnostic) :
    (onTsEvent (didCloseTextDocument uriToPath s uri).1
      (TsEvent.syntaxDiag file diagnostics)).2 =
    [Msg.publishDiagnostics file ((diagnostics.map toDiagnostic) ++
      ((s.diagnosticQueue.semanticDiagnostics.lookup file).getD []))] := by
  simp [onTsEvent, didCloseTextDocument, addSyntacticDiagnostic,
    lookup_mapSet_self]

/-- C1 counterexample: open `/a.ts`, close it, then deliver a syntactic
diagnostic event for it — a publish call is produced, contradicting the
claim that after close a subsequently delivered diagnostic event for the
file produces no publish call. -/
theorem didClose_then_event_publishes_cex :
    (onTsEvent
      (didCloseTextDocument id
        (didOpenTextDocument id initialState 0 "/a.ts" "let x").1 "/a.ts").1
      (TsEvent.syntaxDiag "/a.ts"
        [{ start := ⟨1, 1⟩, endPos := ⟨1, 2⟩, text := "err",
           category := "error", code := none }])).2 =
    [Msg.publishDiagnostics "/a.ts"
      [{ range := { start := ⟨0, 0⟩, endPos := ⟨0, 1⟩ }, message := "err",
         severity := 1, code := none, source := "typescript" }]] := by
  rfl

/-- C8: for a file with no prior diagnostics, a syntactic event with set S1
followed by a semantic event with set M1 invokes the publish callback
exactly twice for that file: first with S1 alone, then with S1 followed by
M1 (the union of both slots). -/
theorem syntacticThenSemantic_publishes_twice
    (s : LspServerState) (file : String) (s1 m1 : List TspDiagnostic)
    (hSyn : s.diagnosticQueue.syntacticDiagnostics.lookup file = none)
    (hSem : s.diagnosticQueue.semanticDiagnostics.lookup file = none) :
    (onTsEvent s (TsEvent.syntaxDiag file s1)).2 ++
      (onTsEvent (onTsEvent s (TsEvent.syntaxDiag file s1)).1
        (TsEvent.semanticDiag file m1)).2 =
    [Msg.publishDiagnostics file (s1.map toDiagnostic),
     Msg.publishDiagnostics file
       (s1.map toDiagnostic ++ m1.map toDiagnostic)] := by
  simp [onTsEvent, addSyntacticDiagnostic, addSemanticDiagnostic,
    lookup_mapSet_self, hSem]

/-- Witness for C8 on the initial state with concrete one-element sets. -/
theorem syntacticThenSemantic_publishes_twice_witness :
    initialState.diagnosticQueue.syntacticDiagnostics.lookup "/a.ts" = none ∧
    initialState.diagnosticQueue.semanticDiagnostics.lookup "/a.ts" = none ∧
    (onTsEvent initialState (TsEvent.syntaxDiag "/a.ts"
        [{ start := ⟨1, 1⟩, endPos := ⟨1, 2⟩, text := "syn",
           category := "error", code := none }])).2 ++
      (onTsEvent (onTsEvent initialState (TsEvent.syntaxDiag "/a.ts"
          [{ start := ⟨1, 1⟩, endPos := ⟨1, 2⟩, text := "syn",
             category := "error", code := none }])).1
        (TsEvent.semanticDiag "/a.ts"
          [{ start := ⟨2, 1⟩, endPos := ⟨2, 3⟩, text := "sem",
             category := "warning", code := some 100 }])).2 =
    [Msg.publishDiagnostics "/a.ts"
       ([{ start := ⟨1, 1⟩, endPos := ⟨1, 2⟩, text := "syn",
           category := "error", code := none }].map toDiagnostic),
     Msg.publishDiagnostics "/a.ts"
       ([{ start := ⟨1, 1⟩, endPos := ⟨1, 2⟩, text := "syn",
           category := "error", code := none }].map toDiagnostic ++
        [{ start := ⟨2, 1⟩, endPos := ⟨2, 3⟩, text := "sem",
           category := "warning", code := some 100 }].map toDiagnostic)] :=
  ⟨rfl, rfl,
    syntacticThenSemantic_publishes_twice initialState "/a.ts" _ _ rfl rfl⟩

/-- `lsp.InitializeParams` as used by `lastFileOrDummy`: `rootUri` is
optional; `rootPath` is read with a non-null assertion (`rootPath!`), so it
is modelled as present. -/
structure InitializeParams where
  rootUri : Option String
  rootPath : String
deriving DecidableEq, Repr

/-- `LspServer.lastFileOrDummy`: the first key yielded by iterating the
opened-document map (JS `Map` iteration is insertion order), converted to a
path; if the map is empty, `rootUri` (converted to a path) when present,
else `rootPath`. The result scopes the `navto` request of
`LspServer.workspaceSymbol`. -/
def lastFileOrDummy (uriToPath : String → String)
    (initializeParams : InitializeParams) (s : LspServerState) : String :=
  match s.openedDocumentUris with
  | (uri, _) :: _ => uriToPath uri
  | [] =>
    match initializeParams.rootUri with
    | some rootUri => uriToPath rootUri
    | none => initializeParams.rootPath

/-- A document-lifecycle operation, for reasoning about operation
sequences. -/
inductive LifecycleOp where
  | openDoc (now : Nat) (uri text : String)
  | changeDoc (now : Nat) (uri : String) (changes : List ContentChange)
  | closeDoc (uri : String)
deriving DecidableEq, Repr

/-- The state reached after one lifecycle operation. -/
def applyOp (uriToPath : String → String) (s : LspServerState) :
    LifecycleOp → LspServerState
  | .openDoc now uri text => (didOpenTextDocument uriToPath s now uri text).1
  | .changeDoc now uri changes =>
    (didChangeTextDocument uriToPath s now uri changes).1
  | .closeDoc uri => (didCloseTextDocument uriToPath s uri).1

/-- The state reached after a sequence of lifecycle operations. -/
def runOps (uriToPath : String → String) (s : LspServerState) :
    List LifecycleOp → LspServerState
  | [] => s
  | op :: ops => runOps uriToPath (applyOp uriToPath s op) ops

/-- `mapSet` restricted to keys: an existing key keeps its position, a new
key is appended. -/
def keysSet (ks : List String) (k : String) : List String :=
  if ks.any (fun x => x == k) then ks else ks ++ [k]

/-- `mapDelete` restricted to keys. -/
def keysDelete (ks : List String) (k : String) : List String :=
  ks.filter (fun x => !(x == k))

/-- The registration order of currently-open documents after a sequence of
lifecycle operations: open and change register a new uri at the end (an
already-registered uri keeps its position), close removes it. -/
def openOrder : List LifecycleOp → List String → List String
  | [], ks => ks
  | op :: ops, ks =>
    openOrder ops
      (match op with
       | .openDoc _ uri _ => keysSet ks uri
       | .changeDoc _ uri _ => keysSet ks uri
       | .closeDoc uri => keysDelete ks uri)

/-- `mapSet` acts on the key sequence as `keysSet`. -/
theorem map_fst_mapSet {α : Type} (m : List (String × α)) (k : String)
    (v : α) : (mapSet m k v).map Prod.fst = keysSet (m.map Prod.fst) k := by
  unfold mapSet keysSet
  have hmap : (m.map Prod.fst).any (fun x => x == k) =
      m.any (fun e => e.1 == k) := by
    induction m with
    | nil => rfl
    | cons e es ih => simp [ih]
  by_cases h : m.any (fun e => e.1 == k)
  · simp only [h, hmap, if_true, List.map_map]
    apply List.map_congr_left
    intro e _
    by_cases he : e.1 == k
    · have hk : e.1 = k := by simpa using he
      simp [Function.comp, he, hk]
    · simp [Function.comp, he]
  · simp [hmap, h]

/-- `mapDelete` acts on the key sequence as `keysDelete`. -/
theorem map_fst_mapDelete {α : Type} (m : List (String × α)) (k : String) :
    (mapDelete m k).map Prod.fst = keysDelete (m.map Prod.fst) k := by
  unfold mapDelete keysDelete
  induction m with
  | nil => simp
  | cons e es ih =>
    by_cases he : e.1 == k
    · simp [List.filter_cons, he, ih]
    · simp [List.filter_cons, he, ih]

/-- The key sequence of the opened-document map after a run of lifecycle
operations is exactly the registration order of those operations. -/
theorem runOps_keys (uriToPath : String → String) (ops : List LifecycleOp) :
    ∀ s : LspServerState,
      (runOps uriToPath s ops).openedDocumentUris.map Prod.fst =
        openOrder ops (s.openedDocumentUris.map Prod.fst) := by
  induction ops with
  | nil => intro s; rfl
  | cons op ops ih =>
    intro s
    cases op with
    | openDoc now uri text =>
      simp [runOps, applyOp, openOrder, didOpenTextDocument, ih,
        map_fst_mapSet]
    | changeDoc now uri changes =>
      simp [runOps, applyOp, openOrder, didChangeTextDocument, ih,
        map_fst_mapSet]
    | closeDoc uri =>
      simp [runOps, applyOp, openOrder, didCloseTextDocument, ih,
        map_fst_mapDelete]

/-- C2 (amended): the scoping file `workspaceSymbol` supplies to the
subprocess is the earliest-registered currently-open file — the first key of
the opened-document map in insertion order — not the most recently opened
one; with no file open it is the initialization root (`rootUri` converted to
a path if present, else `rootPath`). -/
theorem lastFileOrDummy_earliest_open (uriToPath : String → String)
    (ip : InitializeParams) (ops : List LifecycleOp) :
    lastFileOrDummy uriToPath ip (runOps uriToPath initialState ops) =
      match openOrder ops [], ip.rootUri with
      | uri :: _, _ => uriToPath uri
      | [], some rootUri => uriToPath rootUri
      | [], none => ip.rootPath := by
  have h := runOps_keys uriToPath ops initialState
  unfold lastFileOrDummy
  cases hc : (runOps uriToPath initialState ops).openedDocumentUris with
  | nil =>
    rw [hc] at h
    have h3 : openOrder ops [] = [] := by simpa [initialState] using h.symm
    rw [h3]
    cases ip.rootUri <;> rfl
  | cons e rest =>
    rcases e with ⟨uri, ts⟩
    rw [hc] at h
    have h3 : openOrder ops [] = uri :: rest.map Prod.fst := by
      simpa [initialState] using h.symm
    rw [h3]

/-- C2 counterexample: open `/a.ts` then `/b.ts` (both still open); the
scoping file is the first-opened `/a.ts`, not the most recently opened
`/b.ts` — refuting the claim that the most recently opened file is
supplied. -/
theorem lastFileOrDummy_not_most_recent_cex :
    lastFileOrDummy id { rootUri := none, rootPath := "/root" }
      (runOps id initialState
        [LifecycleOp.openDoc 0 "/a.ts" "a",
         LifecycleOp.openDoc 1 "/b.ts" "b"]) = "/a.ts" ∧
    "/a.ts" ≠ "/b.ts" := by
  constructor
  · rfl
  · decide

/-- `tsp.TextSpan`: a start and end tsserver location (the source's `end`
field is renamed `endPos`). -/
structure TextSpan where
  start : TsLocation
  endPos : TsLocation
deriving DecidableEq, Repr

/-- `tsp.NavigationTree`: display text, kind, an ordered list of source
spans, and child nodes (`childItems`; an absent array is modelled as
`[]`). -/
inductive NavigationTree where
  | mk (text kind : String) (spans : List TextSpan)
      (childItems : List NavigationTree)
deriving Repr

/-- The `text` field of a navigation-tree node. -/
def NavigationTree.text : NavigationTree → String
  | .mk t _ _ _ => t

/-- The `kind` field of a navigation-tree node. -/
def NavigationTree.kind : NavigationTree → String
  | .mk _ k _ _ => k

/-- The `spans` field of a navigation-tree node. -/
def NavigationTree.spans : NavigationTree → List TextSpan
  | .mk _ _ s _ => s

/-- The `childItems` field of a navigation-tree node. -/
def NavigationTree.childItems : NavigationTree → List NavigationTree
  | .mk _ _ _ c => c

/-- `lsp.Location`. -/
structure Location where
  uri : String
  range : LspRange
deriving DecidableEq, Repr

/-- `lsp.SymbolInformation` as created by `lsp.SymbolInformation.create`. -/
structure SymbolInformation where
  name : String
  kind : Int
  location : Location
  containerName : Option String
deriving DecidableEq, Repr

/-- `lsp.SymbolInformation.create`, with the source's argument order
(name, kind, range, uri, containerName). -/
def SymbolInformation.create (name : String) (kind : Int) (range : LspRange)
    (uri : String) (containerName : Option String) : SymbolInformation :=
  { name := name
    kind := kind
    location := { uri := uri, range := range }
    containerName := containerName }

mutual
/-- `LspServer.documentSymbol`'s inner `collectSymbol`: reads
`element.spans[0]` and `element.spans[element.spans.length - 1]`, emits a
symbol only when both exist, then visits `childItems` with `element.text` as
the parent name. -/
def collectSymbol (uri : String) (parent : Option String) :
    NavigationTree → List SymbolInformation
  | .mk text kind spans childItems =>
    (match spans.get? 0, spans.get? (spans.length - 1) with
     | some s, some e =>
       [SymbolInformation.create text (toSymbolKind kind)
          { start := toPosition s.start, endPos := toPosition e.endPos }
          uri parent]
     | _, _ => []) ++
    collectSymbols uri text childItems

/-- The `for (const child of element.childItems)` loop of `collectSymbol`,
appending each child's symbols in order. -/
def collectSymbols (uri : String) (parentText : String) :
    List NavigationTree → List SymbolInformation
  | [] => []
  | c :: cs =>
    collectSymbol uri (some parentText) c ++ collectSymbols uri parentText cs
end

/-- `LspServer.documentSymbol` applied to the `navtree` response body: an
absent body yields `[]`, otherwise the body is flattened from the root with
no parent name. -/
def documentSymbol (uri : String) (responseBody : Option NavigationTree) :
    List SymbolInformation :=
  match responseBody with
  | none => []
  | some body => collectSymbol uri none body

mutual
/-- The spec's description of symbol-tree flattening, written from its
words: a flat ordered sequence in which each symbol's reported range runs
from the start of the node's first source span to the end of its last, the
parent's display name is threaded through as the child's container name,
and nodes with no spans are skipped. -/
def specFlatten (uri : String) (parent : Option String) :
    NavigationTree → List SymbolInformation
  | .mk text kind spans childItems =>
    (match spans.head?, spans.getLast? with
     | some first, some lastSpan =>
       [SymbolInformation.create text (toSymbolKind kind)
          { start := toPosition first.start,
            endPos := toPosition lastSpan.endPos }
          uri parent]
     | _, _ => []) ++
    specFlattenList uri text childItems

/-- Flattening of a node's children per the spec, in order, with the
parent's display text as their container name. -/
def specFlattenList (uri : String) (parentText : String) :
    List NavigationTree → List SymbolInformation
  | [] => []
  | c :: cs =>
    specFlatten uri (some parentText) c ++ specFlattenList uri parentText cs
end

/-- Induction over a navigation tree: a property holds everywhere when it
holds at each node given that it holds at all children. -/
theorem navtree_induction (motive : NavigationTree → Prop)
    (h : ∀ text kind spans childItems,
      (∀ c ∈ childItems, motive c) →
      motive (NavigationTree.mk text kind spans childItems)) :
    ∀ t, motive t := by
  have aux : ∀ (n : Nat) (t : NavigationTree), sizeOf t ≤ n → motive t := by
    intro n
    induction n with
    | zero =>
      intro t ht
      cases t with
      | mk text kind spans childItems =>
        simp [NavigationTree.mk.sizeOf_spec] at ht
    | succ n ih =>
      intro t ht
      cases t with
      | mk text kind spans childItems =>
        apply h
        intro c hc
        apply ih
        have h1 : sizeOf c < sizeOf childItems := List.sizeOf_lt_of_mem hc
        simp [NavigationTree.mk.sizeOf_spec] at ht
        omega
  intro t
  exact aux (sizeOf t) t (Nat.le_refl _)

/-- Pointwise equality of `collectSymbol` and `specFlatten` on a node's
children lifts to the child-visiting loop. -/
theorem collectSymbols_eq_specFlattenList (uri ptext : String)
    (cs : List NavigationTree)
    (h : ∀ c ∈ cs, ∀ p, collectSymbol uri p c = specFlatten uri p c) :
    collectSymbols uri ptext cs = specFlattenList uri ptext cs := by
  induction cs with
  | nil => rfl
  | cons c cs ih =>
    rw [collectSymbols, specFlattenList, h c (List.mem_cons_self _ _),
      ih (fun c hc => h c (List.mem_cons_of_mem _ hc))]

/-- C5: `documentSymbol` computes exactly the spec's flattening — a flat
ordered sequence where each emitted symbol's range runs from the start of
the node's first span to the end of its last span, each child's container
name is its parent node's display text, and span-less nodes produce no
symbol. -/
theorem documentSymbol_eq_specFlatten (uri : String) (t : NavigationTree) :
    documentSymbol uri (some t) = specFlatten uri none t := by
  have key : ∀ t : NavigationTree, ∀ parent,
      collectSymbol uri parent t = specFlatten uri parent t := by
    refine navtree_induction
      (fun t => ∀ parent, collectSymbol uri parent t = specFlatten uri parent t)
      ?_
    intro text kind spans childItems ih parent
    rw [collectSymbol, specFlatten, List.get?_zero, ← List.getLast?_eq_get?,
      collectSymbols_eq_specFlattenList uri text childItems ih]
  exact key t none

/-- `s` is a node of the tree `t`: `t` itself, or a node of one of `t`'s
children. -/
inductive IsNode : NavigationTree → NavigationTree → Prop
  | refl (t : NavigationTree) : IsNode t t
  | child {s c : NavigationTree} {text kind : String}
      {spans : List TextSpan} {childItems : List NavigationTree} :
      c ∈ childItems → IsNode s c →
      IsNode s (NavigationTree.mk text kind spans childItems)

/-- A symbol collected from one child is in the output of the
child-visiting loop. -/
theorem mem_collectSymbols {x : SymbolInformation} {uri ptext : String}
    {c : NavigationTree} {cs : List NavigationTree} (hc : c ∈ cs)
    (hx : x ∈ collectSymbol uri (some ptext) c) :
    x ∈ collectSymbols uri ptext cs := by
  induction cs with
  | nil => cases hc
  | cons c' cs' ih =>
    rw [collectSymbols]
    rcases List.mem_cons.mp hc with h | h
    · subst h; exact List.mem_append_left _ hx
    · exact List.mem_append_right _ (ih h)

/-- C10: a navigation-tree node with no source spans still has its children
visited: (1) for a span-less node the collector's output is exactly the
output of visiting its children with that node's display text as their
container name, and (2) every node of the tree with at least one span
contributes a symbol (with its text, kind, and first-span-start to
last-span-end range) to the output. -/
theorem spanlessNode_children_visited :
    (∀ (uri text kind : String) (parent : Option String)
       (childItems : List NavigationTree),
      collectSymbol uri parent (NavigationTree.mk text kind [] childItems) =
        collectSymbols uri text childItems) ∧
    (∀ (uri : String) (parent : Option String) (t s : NavigationTree),
      IsNode s t → s.spans ≠ [] →
      ∃ (first lastSpan : TextSpan) (container : Option String),
        s.spans.head? = some first ∧ s.spans.getLast? = some lastSpan ∧
        SymbolInformation.create s.text (toSymbolKind s.kind)
          { start := toPosition first.start,
            endPos := toPosition lastSpan.endPos }
          uri container ∈
          collectSymbol uri parent t) := by
  constructor
  · intro uri text kind parent childItems
    simp [collectSymbol]
  · intro uri parent t s hnode
    induction hnode generalizing parent with
    | refl =>
      intro hs
      obtain ⟨text, kind, spans, childItems⟩ := s
      simp only [NavigationTree.spans] at hs
      simp only [NavigationTree.text, NavigationTree.kind,
        NavigationTree.spans]
      cases spans with
      | nil => exact absurd rfl hs
      | cons a as =>
        have h2 : (a :: as).get? ((a :: as).length - 1) =
            some ((a :: as).getLast (by simp)) := by
          rw [← List.getLast?_eq_get?, List.getLast?_eq_getLast]
        refine ⟨a, (a :: as).getLast (by simp), parent, rfl, ?_, ?_⟩
        · rw [List.getLast?_eq_getLast]
        · rw [collectSymbol, h2]
          simp only [List.get?_cons_zero]
          exact List.mem_append_left _ (List.mem_singleton.mpr rfl)
    | child hc hnode' ih =>
      intro hs
      obtain ⟨first, lastSpan, container, h1, h2, h3⟩ := ih _ hs
      refine ⟨first, lastSpan, container, h1, h2, ?_⟩
      rw [collectSymbol]
      exact List.mem_append_right _ (mem_collectSymbols hc h3)

/-- Witness for C10: a span-less root whose only child has one span. Its
child list is visited (conjunct 1) and the child's symbol, with the root's
display text available as container via the existential, appears in the
output (conjunct 2). -/
theorem spanlessNode_children_visited_witness :
    (collectSymbol "file:///x.ts" none
        (NavigationTree.mk "root" "module" []
          [NavigationTree.mk "c" "class" [⟨⟨5, 1⟩, ⟨7, 2⟩⟩] []]) =
      collectSymbols "file:///x.ts" "root"
        [NavigationTree.mk "c" "class" [⟨⟨5, 1⟩, ⟨7, 2⟩⟩] []]) ∧
    (∃ (first lastSpan : TextSpan) (container : Option String),
      (NavigationTree.mk "c" "class"
        [⟨⟨5, 1⟩, ⟨7, 2⟩⟩] []).spans.head? = some first ∧
      (NavigationTree.mk "c" "class"
        [⟨⟨5, 1⟩, ⟨7, 2⟩⟩] []).spans.getLast? = some lastSpan ∧
      SymbolInformation.create
        (NavigationTree.mk "c" "class" [⟨⟨5, 1⟩, ⟨7, 2⟩⟩] []).text
        (toSymbolKind (NavigationTree.mk "c" "class" [⟨⟨5, 1⟩, ⟨7, 2⟩⟩] []).kind)
        { start := toPosition first.start, endPos := toPosition lastSpan.endPos }
        "file:///x.ts" container ∈
        collectSymbol "file:///x.ts" none
          (NavigationTree.mk "root" "module" []
            [NavigationTree.mk "c" "class" [⟨⟨5, 1⟩, ⟨7, 2⟩⟩] []])) :=
  ⟨spanlessNode_children_visited.1 "file:///x.ts" "root" "module" none
      [NavigationTree.mk "c" "class" [⟨⟨5, 1⟩, ⟨7, 2⟩⟩] []],
   spanlessNode_children_visited.2 "file:///x.ts" none
      (NavigationTree.mk "root" "module" []
        [NavigationTree.mk "c" "class" [⟨⟨5, 1⟩, ⟨7, 2⟩⟩] []])
      (NavigationTree.mk "c" "class" [⟨⟨5, 1⟩, ⟨7, 2⟩⟩] [])
      (IsNode.child (by simp) (IsNode.refl _))
      (by simp [NavigationTree.spans])⟩

/-- `tsp.RenameInfo` restricted to the field `rename` reads. -/
structure RenameInfo where
  canRename : Bool
deriving DecidableEq, Repr

/-- One group of rename locations (`tsp.SpanGroup`): a file and its spans. -/
structure SpanGroup where
  file : String
  locs : List TextSpan
deriving DecidableEq, Repr

/-- `tsp.RenameResponseBody`: the rename info and the affected span
groups. -/
structure RenameBody where
  info : RenameInfo
  locs : List SpanGroup
deriving DecidableEq, Repr

/-- `lsp.TextEdit`. -/
structure TextEdit where
  newText : String
  range : LspRange
deriving DecidableEq, Repr

/-- `lsp.WorkspaceEdit`: the `changes` object, modelled as an association
list from uri to accumulated edits in property-creation order. -/
structure WorkspaceEdit where
  changes : List (String × List TextEdit)
deriving DecidableEq, Repr

/-- `workspaceEdit.changes[uri] || (workspaceEdit.changes[uri] = [])` then
pushes: appends the edits to the entry for the uri, creating the entry at
the end when absent. -/
def addEdits (changes : List (String × List TextEdit)) (uri : String)
    (edits : List TextEdit) : List (String × List TextEdit) :=
  if changes.any (fun e => e.1 == uri) then
    changes.map (fun e => if e.1 == uri then (e.1, e.2 ++ edits) else e)
  else
    changes ++ [(uri, edits)]

/-- `LspServer.rename` applied to the subprocess response body: returns the
empty edit set when the body is absent, the location is not renamable, or
there are no location groups; otherwise accumulates one text edit per span,
grouped by the span group's file converted to a uri. -/
def rename (pathToUri : String → String) (newName : String)
    (responseBody : Option RenameBody) : WorkspaceEdit :=
  match responseBody with
  | none => { changes := [] }
  | some body =>
    if !body.info.canRename || body.locs.length == 0 then
      { changes := [] }
    else
      { changes := body.locs.foldl (fun acc spanGroup =>
          addEdits acc (pathToUri spanGroup.file)
            (spanGroup.locs.map (fun textSpan =>
              { newText := newName,
                range := { start := toPosition textSpan.start,
                           endPos := toPosition textSpan.endPos } }))) [] }

/-- C6: a missing rename response body, a location reported non-renamable,
and zero affected location groups each yield a workspace edit with an empty
change set (and the operation is total, so it does not fail). -/
theorem rename_refusal_yields_empty_edit (pathToUri : String → String)
    (newName : String) :
    (rename pathToUri newName none = { changes := [] }) ∧
    (∀ locs : List SpanGroup,
      rename pathToUri newName
        (some { info := { canRename := false }, locs := locs }) =
        { changes := [] }) ∧
    (∀ info : RenameInfo,
      rename pathToUri newName (some { info := info, locs := [] }) =
        { changes := [] }) := by
  refine ⟨rfl, fun locs => ?_, fun info => ?_⟩ <;> simp [rename]

/-- The messages the spec prescribes for one content change of a document
change operation: with no range, a full-text replacement (an `open`
notification carrying the whole new content) preceded by a logged warning;
with a range, a single incremental `change` notification whose start and
end coordinates are the zero-based editor coordinates plus one. -/
def specChangeMsgs (uri path : String) (change : ContentChange) : List Msg :=
  match change.range with
  | none =>
    [Msg.logError ("Received non-incremental change for " ++ uri),
     Msg.notifyOpen path change.text]
  | some r =>
    [Msg.notifyChange path (r.start.line + 1) (r.start.character + 1)
      (r.endPos.line + 1) (r.endPos.character + 1) change.text]

/-- C7: the messages of a document-change operation are exactly the
spec-prescribed per-change messages, in change order, followed by the one
re-analysis request; in particular a change without a range degrades to a
logged warning plus a full-text `open` notification and the operation still
completes. -/
theorem didChange_matches_specChangeMsgs (uriToPath : String → String)
    (s : LspServerState) (now : Nat) (uri : String)
    (contentChanges : List ContentChange) :
    (didChangeTextDocument uriToPath s now uri contentChanges).2 =
      contentChanges.flatMap (specChangeMsgs uri (uriToPath uri)) ++
        [requestDiagnosticsMsg uriToPath
          (didChangeTextDocument uriToPath s now uri contentChanges).1] :=
  rfl

/-- `tsp.SymbolDisplayPart`. -/
structure SymbolDisplayPart where
  text : String
  kind : String
deriving DecidableEq, Repr

/-- One entry of a `completionEntryDetails` response body. -/
structure CompletionEntryDetail where
  documentation : List SymbolDisplayPart
deriving DecidableEq, Repr

/-- The `data` stashed on a completion item for resolution. -/
structure CompletionItemData where
  file : String
  line : Int
  offset : Int
deriving DecidableEq, Repr

/-- `lsp.CompletionItem` restricted to the fields `completionResolve`
touches. -/
structure CompletionItem where
  label : String
  kind : Option Int
  data : CompletionItemData
  documentation : Option String
deriving DecidableEq, Repr

/-- `LspServer.completionResolve` applied to the subprocess response body:
an absent body returns the item unchanged; a present body sets the item's
documentation from `body[0]` (an empty body array makes the JS code read
`undefined.documentation` and throw, modelled as `none`). -/
def completionResolve (item : CompletionItem)
    (responseBody : Option (List CompletionEntryDetail)) :
    Option CompletionItem :=
  match responseBody with
  | none => some item
  | some [] => none
  | some (d :: _) =>
    let docText := String.intercalate "\n" (d.documentation.map (fun i => i.text))
    some { item with documentation := some docText }

/-- C9: when the `completiondetails` response has no body, the resolve
operation returns the input completion item unchanged. -/
theorem completionResolve_no_body_returns_item (item : CompletionItem) :
    completionResolve item none = some item :=
  rfl
